import Mathlib

/-
Verification development for the P2P file-sharing application
(tracker in server.py, peer engine in client.py).

The tracker state is embedded as association lists, which reproduce the
insertion-order semantics of the Python dicts `self.clients` and
`self.files`.  Each registry request handler is translated directly from
the corresponding method of `CentralServer`; replies are the exact wire
strings the Python code builds.  The requester download loop of
`P2PClient.download_from_peer` is embedded over the list of chunk sizes
delivered by the connection (the end of the list, or an empty chunk,
models the connection closing).
-/

namespace P2P

/-- Value stored in the tracker dict `self.clients` for one hostname
(the socket field of the Python dict carries no registry-visible data and
is not part of the state). -/
structure ClientInfo where
  ip : String
  port : Int
  active : Bool
deriving Repr, DecidableEq

/-- Value stored in the tracker dict `self.files` for one filename. -/
structure FileRecord where
  owner : String
  holders : List String
deriving Repr, DecidableEq

/-- The shared mutable state of `CentralServer`: the `clients` dict and the
`files` dict, as insertion-ordered association lists. -/
structure ServerState where
  clients : List (String × ClientInfo)
  files : List (String × FileRecord)
deriving Repr, DecidableEq

/-- Translation of `CentralServer.handle_register` (server.py lines
107-120): reject if the hostname key already exists, otherwise insert a
new record with `active = true`.  Returns the reply string and the new
state. -/
def handle_register (hostname ip : String) (port : Int) (s : ServerState) :
    String × ServerState :=
  match s.clients.lookup hostname with
  | some _ => ("REGISTER_FAIL Hostname already exists", s)
  | none =>
      ("REGISTER_SUCCESS",
        { s with clients := s.clients ++ [(hostname, ⟨ip, port, true⟩)] })

/-- Translation of the in-place mutation
`self.files[filename]['holders'].append(hostname)` (server.py line 137):
the entry keyed by `filename` gets `hostname` appended to its holders. -/
def publishUpdate (filename hostname : String)
    (l : List (String × FileRecord)) : List (String × FileRecord) :=
  l.map (fun p =>
    if p.1 = filename then (p.1, { p.2 with holders := p.2.holders ++ [hostname] })
    else p)

/-- Translation of `CentralServer.handle_publish` (server.py lines
122-142): fail if the hostname is not registered; create the FileRecord
with owner = the publisher on first publish; otherwise append the
publisher to the holders unless already present. -/
def handle_publish (filename hostname : String) (s : ServerState) :
    String × ServerState :=
  match s.clients.lookup hostname with
  | none => ("PUBLISH_FAIL Client not registered", s)
  | some _ =>
      match s.files.lookup filename with
      | none =>
          ("PUBLISH_SUCCESS",
            { s with files := s.files ++ [(filename, ⟨hostname, [hostname]⟩)] })
      | some r =>
          if hostname ∈ r.holders then ("PUBLISH_SUCCESS", s)
          else ("PUBLISH_SUCCESS", { s with files := publishUpdate filename hostname s.files })

/-- Translation of the membership-and-liveness test
`hostname in self.clients and self.clients[hostname]['active']`
(server.py line 153). -/
def isActive (s : ServerState) (hostname : String) : Bool :=
  match s.clients.lookup hostname with
  | some c => c.active
  | none => false

/-- Translation of the peer-list building loop of `handle_fetch`
(server.py lines 151-157): iterate the holders in order, keep those that
are registered and active, format each as `ip:port:hostname:ownerflag`. -/
def fetchEntries (s : ServerState) (owner : String) : List String → List String
  | [] => []
  | h :: rest =>
      match s.clients.lookup h with
      | some c =>
          if c.active then
            (c.ip ++ ":" ++ toString c.port ++ ":" ++ h ++ ":"
              ++ (if h = owner then "1" else "0")) :: fetchEntries s owner rest
          else fetchEntries s owner rest
      | none => fetchEntries s owner rest

/-- Translation of `CentralServer.handle_fetch` (server.py lines
144-162). -/
def handle_fetch (filename : String) (s : ServerState) : String :=
  match s.files.lookup filename with
  | none => "FETCH_NOT_FOUND"
  | some r =>
      if r.holders.length = 0 then "FETCH_NOT_FOUND"
      else
        let peers := fetchEntries s r.owner r.holders
        if peers = [] then "FETCH_NOT_FOUND"
        else "FETCH_OK " ++ String.intercalate " " peers

/-- Translation of the in-place mutation
`self.clients[hostname]['active'] = False` (server.py line 167). -/
def setInactive (hostname : String) (l : List (String × ClientInfo)) :
    List (String × ClientInfo) :=
  l.map (fun p =>
    if p.1 = hostname then (p.1, { p.2 with active := false }) else p)

/-- Translation of `CentralServer.handle_disconnect` (server.py lines
164-168): if the hostname is registered, flip its active flag to false;
records are never deleted. -/
def handle_disconnect (hostname : String) (s : ServerState) : ServerState :=
  match s.clients.lookup hostname with
  | none => s
  | some _ => { s with clients := setInactive hostname s.clients }

/-- Translation of `CentralServer.handle_list_clients` (server.py lines
170-181). -/
def handle_list_clients (s : ServerState) : String :=
  let active := s.clients.filterMap (fun p => if p.2.active then some p.1 else none)
  if active = [] then "LIST_CLIENTS_OK"
  else "LIST_CLIENTS_OK " ++ String.intercalate " " active

/-- Translation of the file-list building loop of `handle_discover_client`
(server.py lines 190-194): iterate `self.files` in insertion order, keep
the files whose holders contain the queried hostname, format each as
`filename:ownerflag`. -/
def discoverEntries (hostname : String) : List (String × FileRecord) → List String
  | [] => []
  | (f, r) :: rest =>
      if hostname ∈ r.holders then
        (f ++ ":" ++ (if hostname = r.owner then "1" else "0"))
          :: discoverEntries hostname rest
      else discoverEntries hostname rest

/-- Translation of `CentralServer.handle_discover_client` (server.py lines
183-199). -/
def handle_discover_client (client_hostname : String) (s : ServerState) : String :=
  match s.clients.lookup client_hostname with
  | none => "DISCOVER_CLIENT_NOT_FOUND"
  | some _ =>
      let fs := discoverEntries client_hostname s.files
      if fs = [] then "DISCOVER_CLIENT_OK"
      else "DISCOVER_CLIENT_OK " ++ String.intercalate " " fs

/-- Translation of the command dispatch of `CentralServer.handle_client`
(server.py lines 67-95) for one received line, already split into
whitespace-separated tokens.  `none` models the paths where the Python
code raises an uncaught exception (an out-of-range `parts[i]` index or a
failing `int(...)` conversion): control jumps to the `except` clause of
`handle_client`, no reply is sent, and the connection is closed. -/
def dispatch (s : ServerState) (addrIp : String) (parts : List String) :
    Option (String × ServerState) :=
  match parts with
  | [] => none
  | command :: args =>
      if command = "REGISTER" then
        match args with
        | hostname :: portStr :: _ =>
            match portStr.toInt? with
            | some p2pPort => some (handle_register hostname addrIp p2pPort s)
            | none => none
        | _ => none
      else if command = "PUBLISH" then
        match args with
        | filename :: hostname :: _ => some (handle_publish filename hostname s)
        | _ => none
      else if command = "FETCH" then
        match args with
        | filename :: _ => some (handle_fetch filename s, s)
        | _ => none
      else if command = "LIST_CLIENTS" then
        some (handle_list_clients s, s)
      else if command = "DISCOVER_CLIENT" then
        match args with
        | client_hostname :: _ => some (handle_discover_client client_hostname s, s)
        | [] => some ("DISCOVER_CLIENT_NOT_FOUND", s)
      else
        some ("UNKNOWN_COMMAND", s)

/-- Translation of the requester receive loop of
`P2PClient.download_from_peer` (client.py lines 340-348): while fewer
than `filesize` bytes were received, `recv` the next chunk; an empty
chunk, or the stream ending, breaks the loop.  `chunks` is the sequence
of chunk sizes the connection delivers before closing; the result is the
final value of the `received` counter. -/
def recvLoop (filesize : Nat) (chunks : List Nat) (received : Nat) : Nat :=
  match chunks with
  | [] => received
  | c :: rest =>
      if received < filesize then
        if c = 0 then received else recvLoop filesize rest (received + c)
      else received

/-- Translation of the result of `P2PClient.download_from_peer` (client.py
lines 350-355) once the responder has declared `FILESIZE filesize`: the
attempt reports success exactly when the receive loop ends with
`received == filesize`. -/
def download_from_peer (filesize : Nat) (chunks : List Nat) : Bool :=
  recvLoop filesize chunks 0 == filesize

/-- Translation of the receive loop of
`P2PClient.download_from_peer_with_progress` (client.py lines 453-465):
the same loop, additionally accumulating the `(received, filesize)` pairs
reported to the progress callback. -/
def recvLoopProgress (filesize : Nat) (chunks : List Nat) (received : Nat)
    (reports : List (Nat × Nat)) : Nat × List (Nat × Nat) :=
  match chunks with
  | [] => (received, reports)
  | c :: rest =>
      if received < filesize then
        if c = 0 then (received, reports)
        else recvLoopProgress filesize rest (received + c)
          (reports ++ [(received + c, filesize)])
      else (received, reports)

/-- Translation of the result of `P2PClient.download_from_peer_with_progress`
(client.py line 466). -/
def download_from_peer_with_progress (filesize : Nat) (chunks : List Nat) : Bool :=
  (recvLoopProgress filesize chunks 0 []).1 == filesize

/-- Translation of the candidate loop of `P2PClient.fetch_file` (client.py
lines 288-305).  Each candidate is the colon-split field list of one
`<peer>` entry returned by the tracker; entries with fewer than 3 fields
are skipped without an attempt (the `continue` at line 291).  `att p`
gives the outcome `download_from_peer` would have for candidate `p`.
Returns the overall outcome (true exactly when the loop hit a successful
download and returned early) together with the list of candidates
actually attempted, in attempt order. -/
def tryPeers (att : List String → Bool) : List (List String) → Bool × List (List String)
  | [] => (false, [])
  | p :: rest =>
      if p.length < 3 then tryPeers att rest
      else if att p then (true, [p])
      else
        let r := tryPeers att rest
        (r.1, p :: r.2)

/-- Modelled from the spec, for refinement of `handle_fetch`: the reply
body is "the filtered holder set as address tuples, owner-flagged, in the
file's holder-insertion order", each entry being `ip:port:hostname:ownerflag`
with ownerflag `1` exactly for the owner hostname. -/
def specPeerEntry (s : ServerState) (owner h : String) : String :=
  match s.clients.lookup h with
  | some c =>
      c.ip ++ ":" ++ toString c.port ++ ":" ++ h ++ ":"
        ++ (if h = owner then "1" else "0")
  | none => ""

/-- Modelled from the spec, for refinement of `handle_fetch`: the holders
filtered to active peers, in holder-insertion order, formatted as address
tuples. -/
def specFetchList (s : ServerState) (owner : String) (holders : List String) :
    List String :=
  (holders.filter (fun h => isActive s h)).map (specPeerEntry s owner)

/-- Modelled from the spec, for refinement of `handle_discover_client`:
`filename:ownerflag` entries "restricted to files for which the queried
hostname is a holder", in file-insertion order. -/
def specDiscoverList (hostname : String) (files : List (String × FileRecord)) :
    List String :=
  (files.filter (fun p => hostname ∈ p.2.holders)).map
    (fun p => p.1 ++ ":" ++ (if hostname = p.2.owner then "1" else "0"))

/-- Owner recorded for a filename, when the file has been published. -/
def ownerOf (s : ServerState) (f : String) : Option String :=
  (s.files.lookup f).map (fun r => r.owner)

/-- Number of holders recorded for a filename (0 when unpublished). -/
def holdersCount (s : ServerState) (f : String) : Nat :=
  ((s.files.lookup f).map (fun r => r.holders.length)).getD 0

/-- Sequential application of a list of PUBLISH requests
(filename, hostname), each handled by `handle_publish`. -/
def applyPublishes (ops : List (String × String)) (s : ServerState) : ServerState :=
  ops.foldl (fun st op => (handle_publish op.1 op.2 st).2) s

/-! Basic lemmas about association-list lookup. -/

theorem lookup_append_some {β : Type} (l l2 : List (String × β)) (a : String)
    (b : β) (h : l.lookup a = some b) : (l ++ l2).lookup a = some b := by
  induction l with
  | nil => simp [List.lookup] at h
  | cons p rest ih =>
      obtain ⟨k, v⟩ := p
      cases hk : (a == k) with
      | true => simpa [List.lookup, hk] using h
      | false =>
          simp only [List.cons_append, List.lookup, hk] at h ⊢
          exact ih h

theorem lookup_append_none {β : Type} (l l2 : List (String × β)) (a : String)
    (h : l.lookup a = none) : (l ++ l2).lookup a = l2.lookup a := by
  induction l with
  | nil => simp
  | cons p rest ih =>
      obtain ⟨k, v⟩ := p
      cases hk : (a == k) with
      | true => simp [List.lookup, hk] at h
      | false =>
          simp only [List.cons_append, List.lookup, hk] at h ⊢
          exact ih h

theorem lookup_mapUpdate {β : Type} (g : β → β) (key a : String)
    (l : List (String × β)) :
    (l.map (fun p => if p.1 = key then (p.1, g p.2) else p)).lookup a
      = (l.lookup a).map (fun v => if a = key then g v else v) := by
  induction l with
  | nil => simp [List.lookup]
  | cons p rest ih =>
      obtain ⟨k, v⟩ := p
      have hmap : (((k, v) :: rest).map (fun p => if p.1 = key then (p.1, g p.2) else p))
          = (if k = key then (k, g v) else (k, v))
            :: rest.map (fun p => if p.1 = key then (p.1, g p.2) else p) := rfl
      rw [hmap]
      by_cases hkey : k = key
      · rw [if_pos hkey]
        by_cases hak : a = k
        · subst hak
          simp [List.lookup, hkey]
        · have hbeq : (a == k) = false := by simp [hak]
          simp [List.lookup, hbeq, ih]
      · rw [if_neg hkey]
        by_cases hak : a = k
        · subst hak
          simp [List.lookup, hkey]
        · have hbeq : (a == k) = false := by simp [hak]
          simp [List.lookup, hbeq, ih]

theorem lookup_publishUpdate (filename hostname a : String)
    (l : List (String × FileRecord)) :
    (publishUpdate filename hostname l).lookup a
      = (l.lookup a).map (fun r =>
          if a = filename then { r with holders := r.holders ++ [hostname] } else r) := by
  simpa [publishUpdate] using
    lookup_mapUpdate (fun r => { r with holders := r.holders ++ [hostname] }) filename a l

theorem lookup_setInactive (hostname a : String) (l : List (String × ClientInfo)) :
    (setInactive hostname l).lookup a
      = (l.lookup a).map (fun c =>
          if a = hostname then { c with active := false } else c) := by
  simpa [setInactive] using
    lookup_mapUpdate (fun c => { c with active := false }) hostname a l

theorem setInactive_keys (hostname : String) (l : List (String × ClientInfo)) :
    (setInactive hostname l).map Prod.fst = l.map Prod.fst := by
  induction l with
  | nil => rfl
  | cons p rest ih =>
      by_cases hp : p.1 = hostname <;> simp [setInactive, hp] at ih ⊢ <;> exact ih

/-! Lemmas connecting the handler loops with the spec-side descriptions. -/

theorem fetchEntries_eq_spec (s : ServerState) (owner : String)
    (holders : List String) :
    fetchEntries s owner holders = specFetchList s owner holders := by
  induction holders with
  | nil => rfl
  | cons h rest ih =>
      cases hl : s.clients.lookup h with
      | none => simpa [fetchEntries, specFetchList, hl, isActive] using ih
      | some c =>
          cases hc : c.active with
          | false => simpa [fetchEntries, specFetchList, hl, hc, isActive] using ih
          | true =>
              simp only [fetchEntries, specFetchList, hl, hc, isActive, if_true]
              simp only [specFetchList] at ih
              simp [List.filter, isActive, hl, hc, specPeerEntry, ih]

theorem discoverEntries_eq_spec (hostname : String)
    (files : List (String × FileRecord)) :
    discoverEntries hostname files = specDiscoverList hostname files := by
  induction files with
  | nil => rfl
  | cons p rest ih =>
      obtain ⟨f, r⟩ := p
      by_cases hm : hostname ∈ r.holders <;>
        simpa [discoverEntries, specDiscoverList, hm] using ih

/-! Lemmas about the receive loops. -/

theorem recvLoop_le (filesize : Nat) (chunks : List Nat) (received : Nat) :
    recvLoop filesize chunks received ≤ received + chunks.sum := by
  induction chunks generalizing received with
  | nil => simp [recvLoop]
  | cons c rest ih =>
      simp only [recvLoop, List.sum_cons]
      by_cases hr : received < filesize
      · by_cases hc : c = 0
        · simp [hr, hc]
        · simp only [hr, if_true, hc, if_false]
          calc recvLoop filesize rest (received + c) ≤ received + c + rest.sum := ih _
            _ = received + (c + rest.sum) := by ring
      · simp [hr]

theorem recvLoopProgress_fst (filesize : Nat) (chunks : List Nat)
    (received : Nat) (reports : List (Nat × Nat)) :
    (recvLoopProgress filesize chunks received reports).1
      = recvLoop filesize chunks received := by
  induction chunks generalizing received reports with
  | nil => rfl
  | cons c rest ih =>
      by_cases hr : received < filesize
      · by_cases hc : c = 0 <;> simp [recvLoopProgress, recvLoop, hr, hc, ih]
      · simp [recvLoopProgress, recvLoop, hr]

/-! String disequalities between the distinct wire replies. -/

theorem fetch_ok_ne_not_found (x : String) :
    "FETCH_OK " ++ x ≠ "FETCH_NOT_FOUND" := by
  intro h
  have h2 := congrArg String.data h
  rw [String.data_append] at h2
  simp at h2

theorem discover_ok_ne_not_found (x : String) :
    "DISCOVER_CLIENT_OK " ++ x ≠ "DISCOVER_CLIENT_NOT_FOUND" := by
  intro h
  have h2 := congrArg String.data h
  rw [String.data_append] at h2
  simp at h2

/-! Structural lemmas about the publish handler. -/

theorem handle_publish_clients (f h : String) (s : ServerState) :
    ((handle_publish f h s).2).clients = s.clients := by
  cases hc : s.clients.lookup h with
  | none => simp [handle_publish, hc]
  | some c =>
      cases hf : s.files.lookup f with
      | none => simp [handle_publish, hc, hf]
      | some r => by_cases hm : h ∈ r.holders <;> simp [handle_publish, hc, hf, hm]

theorem ownerOf_handle_publish (f2 h2 f : String) (s : ServerState) (o : String)
    (h : ownerOf s f = some o) : ownerOf (handle_publish f2 h2 s).2 f = some o := by
  obtain ⟨r, hr, hro⟩ : ∃ r, s.files.lookup f = some r ∧ r.owner = o := by
    unfold ownerOf at h
    cases hf : s.files.lookup f with
    | none => rw [hf] at h; simp at h
    | some r => rw [hf] at h; exact ⟨r, rfl, by simpa using h⟩
  cases hc : s.clients.lookup h2 with
  | none =>
      have hst : (handle_publish f2 h2 s).2 = s := by simp [handle_publish, hc]
      rw [hst]
      exact h
  | some c =>
      cases hf2 : s.files.lookup f2 with
      | none =>
          have hst : (handle_publish f2 h2 s).2.files
              = s.files ++ [(f2, ({ owner := h2, holders := [h2] } : FileRecord))] := by
            simp [handle_publish, hc, hf2]
          unfold ownerOf
          rw [hst, lookup_append_some _ _ _ _ hr]
          simpa using hro
      | some r2 =>
          by_cases hm : h2 ∈ r2.holders
          · have hst : (handle_publish f2 h2 s).2 = s := by
              simp [handle_publish, hc, hf2, hm]
            rw [hst]
            exact h
          · have hst : (handle_publish f2 h2 s).2.files = publishUpdate f2 h2 s.files := by
              simp [handle_publish, hc, hf2, hm]
            unfold ownerOf
            rw [hst, lookup_publishUpdate, hr]
            by_cases hff : f = f2 <;> simp [hff, hro]

theorem ownerOf_applyPublishes (ops : List (String × String)) (s : ServerState)
    (f o : String) (h : ownerOf s f = some o) :
    ownerOf (applyPublishes ops s) f = some o := by
  induction ops generalizing s with
  | nil => exact h
  | cons op rest ih =>
      have step : applyPublishes (op :: rest) s
          = applyPublishes rest (handle_publish op.1 op.2 s).2 := rfl
      rw [step]
      exact ih _ (ownerOf_handle_publish op.1 op.2 f s o h)

/-- Sample registry state used by the concrete witnesses: three registered
peers (carol already inactive) and two published files. -/
def stA : ServerState :=
  ⟨[("alice", ⟨"10.0.0.1", 9001, true⟩),
    ("bob", ⟨"10.0.0.2", 9002, true⟩),
    ("carol", ⟨"10.0.0.3", 9003, false⟩)],
   [("a.txt", ⟨"alice", ["alice", "bob", "carol"]⟩),
    ("b.txt", ⟨"bob", ["bob"]⟩)]⟩

/-- C1: for every filename f, the owner recorded for f is the hostname that
first published f, and it is never reassigned: once publish(f, h1) creates
the FileRecord, any sequence of later publish operations leaves
owner(f) = h1. -/
theorem C1_owner_never_reassigned (s : ServerState) (f h1 : String)
    (ops : List (String × String))
    (hreg : s.clients.lookup h1 ≠ none) (hnew : s.files.lookup f = none) :
    ownerOf (applyPublishes ops (handle_publish f h1 s).2) f = some h1 := by
  apply ownerOf_applyPublishes
  obtain ⟨c, hc⟩ := Option.ne_none_iff_exists'.mp hreg
  have hfiles : (handle_publish f h1 s).2.files = s.files ++ [(f, ⟨h1, [h1]⟩)] := by
    simp [handle_publish, hc, hnew]
  simp [ownerOf, hfiles, lookup_append_none _ _ _ hnew, List.lookup]

/-- Witness for C1: in the sample state, alice publishes c.txt first, then
bob and carol publish the same name; the owner stays alice. -/
theorem C1_witness :
    stA.clients.lookup "alice" ≠ none ∧ stA.files.lookup "c.txt" = none ∧
    ownerOf (applyPublishes [("c.txt", "bob"), ("c.txt", "carol")]
      (handle_publish "c.txt" "alice" stA).2) "c.txt" = some "alice" :=
  ⟨by decide, by decide,
    C1_owner_never_reassigned stA "c.txt" "alice" [("c.txt", "bob"), ("c.txt", "carol")]
      (by decide) (by decide)⟩

/-- C6: a first register of a hostname succeeds and creates an active
record; a second register of the same hostname fails with REGISTER_FAIL
and changes nothing, both when the first registration is still active and
after it was marked inactive by a disconnect. -/
theorem C6_register_once (s : ServerState) (h ip : String) (port : Int) :
    (∀ c, s.clients.lookup h = some c →
        handle_register h ip port s = ("REGISTER_FAIL Hostname already exists", s) ∧
        handle_register h ip port (handle_disconnect h s)
          = ("REGISTER_FAIL Hostname already exists", handle_disconnect h s)) ∧
    (s.clients.lookup h = none →
        (handle_register h ip port s).1 = "REGISTER_SUCCESS" ∧
        (handle_register h ip port s).2.clients.lookup h = some ⟨ip, port, true⟩) := by
  constructor
  · intro c hc
    refine ⟨by simp [handle_register, hc], ?_⟩
    have hd : (handle_disconnect h s).clients.lookup h
        = some { c with active := false } := by
      simp [handle_disconnect, hc, lookup_setInactive]
    simp [handle_register, hd]
  · intro hc
    refine ⟨by simp [handle_register, hc], ?_⟩
    simp [handle_register, hc, lookup_append_none _ _ _ hc, List.lookup]

/-- Witness for C6: dave is unregistered in the sample state, so his first
registration succeeds; alice is registered, so her second registration
fails both before and after a disconnect. -/
theorem C6_witness :
    (handle_register "alice" "10.0.0.9" 9009 stA
        = ("REGISTER_FAIL Hostname already exists", stA) ∧
      handle_register "alice" "10.0.0.9" 9009 (handle_disconnect "alice" stA)
        = ("REGISTER_FAIL Hostname already exists", handle_disconnect "alice" stA)) ∧
    ((handle_register "dave" "10.0.0.4" 9004 stA).1 = "REGISTER_SUCCESS" ∧
      (handle_register "dave" "10.0.0.4" 9004 stA).2.clients.lookup "dave"
        = some ⟨"10.0.0.4", 9004, true⟩) :=
  ⟨(C6_register_once stA "alice" "10.0.0.9" 9009).1 ⟨"10.0.0.1", 9001, true⟩ (by decide),
   (C6_register_once stA "dave" "10.0.0.4" 9004).2 (by decide)⟩

/-- C7: publish is idempotent: for a registered hostname, publishing the
same filename twice succeeds both times and the holder count after the
second publish equals the count after the first. -/
theorem C7_publish_idempotent (s : ServerState) (f h : String)
    (hreg : s.clients.lookup h ≠ none) :
    (handle_publish f h s).1 = "PUBLISH_SUCCESS" ∧
    (handle_publish f h (handle_publish f h s).2).1 = "PUBLISH_SUCCESS" ∧
    holdersCount (handle_publish f h (handle_publish f h s).2).2 f
      = holdersCount (handle_publish f h s).2 f := by
  obtain ⟨c, hc⟩ := Option.ne_none_iff_exists'.mp hreg
  obtain ⟨s1, hs1⟩ : ∃ t, (handle_publish f h s).2 = t := ⟨_, rfl⟩
  have hcl : s1.clients = s.clients := hs1 ▸ handle_publish_clients f h s
  obtain ⟨r1, hr1, hm1⟩ : ∃ r1, s1.files.lookup f = some r1 ∧ h ∈ r1.holders := by
    rw [← hs1]
    cases hf : s.files.lookup f with
    | none =>
        refine ⟨{ owner := h, holders := [h] }, ?_, by simp⟩
        simp [handle_publish, hc, hf, lookup_append_none _ _ _ hf, List.lookup]
    | some r =>
        by_cases hm : h ∈ r.holders
        · exact ⟨r, by simp [handle_publish, hc, hf, hm], hm⟩
        · refine ⟨{ r with holders := r.holders ++ [h] }, ?_, by simp⟩
          simp [handle_publish, hc, hf, hm, lookup_publishUpdate]
  have hc2 : s1.clients.lookup h = some c := by rw [hcl]; exact hc
  have hsecond : handle_publish f h s1 = ("PUBLISH_SUCCESS", s1) := by
    simp [handle_publish, hc2, hr1, hm1]
  have hfirst : (handle_publish f h s).1 = "PUBLISH_SUCCESS" := by
    cases hf : s.files.lookup f with
    | none => simp [handle_publish, hc, hf]
    | some r => by_cases hm : h ∈ r.holders <;> simp [handle_publish, hc, hf, hm]
  refine ⟨hfirst, ?_, ?_⟩ <;> rw [hs1, hsecond]

/-- Witness for C7: bob republishes a.txt twice in the sample state. -/
theorem C7_witness :
    stA.clients.lookup "bob" ≠ none ∧
    ((handle_publish "a.txt" "bob" stA).1 = "PUBLISH_SUCCESS" ∧
      (handle_publish "a.txt" "bob" (handle_publish "a.txt" "bob" stA).2).1
        = "PUBLISH_SUCCESS" ∧
      holdersCount (handle_publish "a.txt" "bob"
          (handle_publish "a.txt" "bob" stA).2).2 "a.txt"
        = holdersCount (handle_publish "a.txt" "bob" stA).2 "a.txt") :=
  ⟨by decide, C7_publish_idempotent stA "a.txt" "bob" (by decide)⟩

/-- C8: disconnecting the registry connection of a registered hostname
flips exactly that record to inactive and changes nothing else: the files
map is untouched, every other client record is untouched, and no client
record is deleted. -/
theorem C8_disconnect_frame (s : ServerState) (h : String) (c : ClientInfo)
    (hreg : s.clients.lookup h = some c) :
    (handle_disconnect h s).files = s.files ∧
    (handle_disconnect h s).clients.lookup h = some { c with active := false } ∧
    (∀ g, g ≠ h → (handle_disconnect h s).clients.lookup g = s.clients.lookup g) ∧
    (handle_disconnect h s).clients.map Prod.fst = s.clients.map Prod.fst := by
  have hd : handle_disconnect h s = { s with clients := setInactive h s.clients } := by
    simp [handle_disconnect, hreg]
  refine ⟨by rw [hd], ?_, ?_, ?_⟩
  · rw [hd]
    simp [lookup_setInactive, hreg]
  · intro g hg
    rw [hd]
    simp [lookup_setInactive, hg]
  · rw [hd]
    exact setInactive_keys h s.clients

/-- Witness for C8: disconnecting alice in the sample state. -/
theorem C8_witness :
    stA.clients.lookup "alice" = some ⟨"10.0.0.1", 9001, true⟩ ∧
    ((handle_disconnect "alice" stA).files = stA.files ∧
      (handle_disconnect "alice" stA).clients.lookup "alice"
        = some ⟨"10.0.0.1", 9001, false⟩ ∧
      (∀ g, g ≠ "alice" →
        (handle_disconnect "alice" stA).clients.lookup g = stA.clients.lookup g) ∧
      (handle_disconnect "alice" stA).clients.map Prod.fst
        = stA.clients.map Prod.fst) :=
  ⟨by decide, C8_disconnect_frame stA "alice" ⟨"10.0.0.1", 9001, true⟩ (by decide)⟩

/-- C2: once the responder has declared FILESIZE n, the download attempt
succeeds exactly when the receive loop ends with exactly n bytes; if the
connection delivers fewer than n bytes in total before closing, the
attempt is reported as failed; and the progress-reporting variant returns
the same verdict as the plain one. -/
theorem C2_download_size_exact (n : Nat) (chunks : List Nat) :
    (download_from_peer n chunks = true ↔ recvLoop n chunks 0 = n) ∧
    (chunks.sum < n → download_from_peer n chunks = false) ∧
    download_from_peer_with_progress n chunks = download_from_peer n chunks := by
  refine ⟨by simp [download_from_peer], ?_, ?_⟩
  · intro hlt
    have hle := recvLoop_le n chunks 0
    simp only [Nat.zero_add] at hle
    have hne : recvLoop n chunks 0 ≠ n := by omega
    simp [download_from_peer, hne]
  · simp [download_from_peer_with_progress, download_from_peer, recvLoopProgress_fst]

/-- Witness for C2: a responder declaring 1000000 bytes whose connection
closes after a single 500000-byte chunk yields a failed download. -/
theorem C2_witness :
    List.sum [500000] < 1000000 ∧ download_from_peer 1000000 [500000] = false :=
  ⟨by decide, (C2_download_size_exact 1000000 [500000]).2.1 (by decide)⟩

/-- C3: handle_fetch answers FETCH_NOT_FOUND exactly when the filename was
never published or every recorded holder is currently inactive (not
registered as active). -/
theorem C3_fetch_not_found_iff (s : ServerState) (f : String) :
    handle_fetch f s = "FETCH_NOT_FOUND" ↔
      (s.files.lookup f = none ∨
        ∃ r, s.files.lookup f = some r ∧ ∀ h ∈ r.holders, isActive s h = false) := by
  cases hl : s.files.lookup f with
  | none => simp [handle_fetch, hl]
  | some r =>
      simp only [handle_fetch, hl]
      by_cases hlen : r.holders.length = 0
      · have hnil : r.holders = [] := List.length_eq_zero.mp hlen
        rw [if_pos hlen]
        constructor
        · intro _
          exact Or.inr ⟨r, rfl, by simp [hnil]⟩
        · intro _
          rfl
      · rw [if_neg hlen, fetchEntries_eq_spec]
        by_cases hp : specFetchList s r.owner r.holders = []
        · rw [if_pos hp]
          constructor
          · intro _
            refine Or.inr ⟨r, rfl, fun h hm => ?_⟩
            have hfil : r.holders.filter (fun h => isActive s h) = [] :=
              List.map_eq_nil_iff.mp hp
            have := List.filter_eq_nil_iff.mp hfil h hm
            simpa using this
          · intro _
            rfl
        · rw [if_neg hp]
          constructor
          · intro hcontra
            exact absurd hcontra (fetch_ok_ne_not_found _)
          · rintro (hnone | ⟨r2, hr2, hall⟩)
            · exact Option.noConfusion hnone
            · obtain rfl : r2 = r := by injection hr2 with h2; exact h2.symm
              refine absurd ?_ hp
              unfold specFetchList
              rw [List.filter_eq_nil_iff.mpr (fun h hm => by simp [hall h hm])]
              rfl

/-- C4: the requester attempts the fetch candidates strictly in the order
received, skipping only malformed entries (which the tracker never
produces, hence the well-formedness hypothesis); the attempted candidates
are exactly the failing prefix plus the first succeeding candidate, so a
success stops the loop at once; and the overall fetch fails exactly when
every candidate attempt fails. -/
theorem C4_fetch_candidates_in_order (att : List String → Bool)
    (peers : List (List String)) (hwf : ∀ p ∈ peers, 3 ≤ p.length) :
    (tryPeers att peers).2
        = peers.takeWhile (fun p => !att p)
          ++ (peers.dropWhile (fun p => !att p)).take 1 ∧
    ((tryPeers att peers).1 = false ↔ ∀ p ∈ peers, att p = false) := by
  induction peers with
  | nil => simp [tryPeers]
  | cons p rest ih =>
      have hp : ¬(p.length < 3) := by
        have := hwf p (List.mem_cons_self p rest)
        omega
      have hrest := ih (fun q hq => hwf q (List.mem_cons_of_mem p hq))
      cases hatt : att p with
      | true =>
          have h2 : tryPeers att (p :: rest) = (true, [p]) := by
            simp [tryPeers, hp, hatt]
          rw [h2]
          constructor
          · simp [List.takeWhile_cons, List.dropWhile_cons, hatt]
          · constructor
            · intro hx
              exact Bool.noConfusion hx
            · intro hall
              have := hall p (List.mem_cons_self p rest)
              rw [hatt] at this
              exact Bool.noConfusion this
      | false =>
          have h2 : tryPeers att (p :: rest)
              = ((tryPeers att rest).1, p :: (tryPeers att rest).2) := by
            simp [tryPeers, hp, hatt]
          rw [h2]
          constructor
          · simp only [List.takeWhile_cons, List.dropWhile_cons, hatt,
              Bool.not_false, if_true, List.cons_append]
            rw [hrest.1]
          · constructor
            · intro hx q hq
              rcases List.mem_cons.mp hq with rfl | hq2
              · exact hatt
              · exact (hrest.2.mp hx) q hq2
            · intro hall
              exact hrest.2.mpr (fun q hq => hall q (List.mem_cons_of_mem p hq))

/-- Sample attempt outcome for the C4 witness: downloading succeeds only
from the peer at address 10.0.0.2. -/
def attSample (p : List String) : Bool := p.headD "" == "10.0.0.2"

/-- Sample candidate list for the C4 witness, as colon-split field lists. -/
def peersSample : List (List String) :=
  [["10.0.0.1", "9001", "alice", "1"],
   ["10.0.0.2", "9002", "bob", "0"],
   ["10.0.0.3", "9003", "carol", "0"]]

/-- Witness for C4: on the sample candidate list the loop attempts alice
(fails), then bob (succeeds) and never reaches carol. -/
theorem C4_witness :
    (∀ p ∈ peersSample, 3 ≤ p.length) ∧
    ((tryPeers attSample peersSample).2
        = peersSample.takeWhile (fun p => !attSample p)
          ++ (peersSample.dropWhile (fun p => !attSample p)).take 1 ∧
      ((tryPeers attSample peersSample).1 = false ↔
        ∀ p ∈ peersSample, attSample p = false)) :=
  ⟨by decide, C4_fetch_candidates_in_order attSample peersSample (by decide)⟩

/-- C5: for a published filename with at least one active holder,
handle_fetch returns FETCH_OK followed by exactly the active holders of
the file, in holder-insertion order, each formatted as
ip:port:hostname:ownerflag with ownerflag 1 exactly for the owner. -/
theorem C5_fetch_ok_content (s : ServerState) (f : String) (r : FileRecord)
    (hf : s.files.lookup f = some r) (hact : ∃ h ∈ r.holders, isActive s h = true) :
    handle_fetch f s
      = "FETCH_OK " ++ String.intercalate " " (specFetchList s r.owner r.holders) := by
  obtain ⟨h0, hm0, ha0⟩ := hact
  have hlen : ¬(r.holders.length = 0) := by
    intro h0len
    rw [List.length_eq_zero.mp h0len] at hm0
    exact absurd hm0 (List.not_mem_nil h0)
  have hne : specFetchList s r.owner r.holders ≠ [] := by
    intro hnil
    have hfil : r.holders.filter (fun h => isActive s h) = [] := List.map_eq_nil_iff.mp hnil
    have := List.filter_eq_nil_iff.mp hfil h0 hm0
    rw [ha0] at this
    exact this rfl
  simp only [handle_fetch, hf]
  rw [if_neg hlen, fetchEntries_eq_spec, if_neg hne]

/-- Witness for C5: fetching a.txt in the sample state (alice and bob
active holders, carol an inactive holder) returns the two active entries
with alice owner-flagged. -/
theorem C5_witness :
    stA.files.lookup "a.txt" = some ⟨"alice", ["alice", "bob", "carol"]⟩ ∧
    (∃ h ∈ (["alice", "bob", "carol"] : List String), isActive stA h = true) ∧
    handle_fetch "a.txt" stA
      = "FETCH_OK " ++ String.intercalate " "
          (specFetchList stA "alice" ["alice", "bob", "carol"]) :=
  ⟨by decide, by decide,
    C5_fetch_ok_content stA "a.txt" ⟨"alice", ["alice", "bob", "carol"]⟩
      (by decide) (by decide)⟩

/-- C9: handle_discover_client answers NOT_FOUND exactly for hostnames
that never registered; for a registered hostname it returns the success
reply carrying exactly the filename:ownerflag entries of the files whose
holders contain the hostname (the bare success token when there are
none). -/
theorem C9_discover_client_spec (s : ServerState) (h : String) :
    (handle_discover_client h s = "DISCOVER_CLIENT_NOT_FOUND" ↔
      s.clients.lookup h = none) ∧
    (s.clients.lookup h ≠ none →
      handle_discover_client h s =
        (if specDiscoverList h s.files = [] then "DISCOVER_CLIENT_OK"
         else "DISCOVER_CLIENT_OK "
            ++ String.intercalate " " (specDiscoverList h s.files))) := by
  cases hc : s.clients.lookup h with
  | none =>
      constructor
      · simp [handle_discover_client, hc]
      · intro hcon
        exact absurd rfl hcon
  | some c =>
      constructor
      · simp only [handle_discover_client, hc]
        rw [discoverEntries_eq_spec]
        by_cases hnil : specDiscoverList h s.files = []
        · rw [if_pos hnil]
          constructor
          · intro hx
            exact absurd hx (by decide)
          · intro hx
            exact Option.noConfusion hx
        · rw [if_neg hnil]
          constructor
          · intro hx
            exact absurd hx (discover_ok_ne_not_found _)
          · intro hx
            exact Option.noConfusion hx
      · intro _
        simp only [handle_discover_client, hc]
        rw [discoverEntries_eq_spec]

/-- Witness for C9: in the sample state bob is a holder of both files
(owner of b.txt only), and the reply lists exactly those entries. -/
theorem C9_witness :
    stA.clients.lookup "bob" ≠ none ∧
    handle_discover_client "bob" stA =
      (if specDiscoverList "bob" stA.files = [] then "DISCOVER_CLIENT_OK"
       else "DISCOVER_CLIENT_OK "
          ++ String.intercalate " " (specDiscoverList "bob" stA.files)) :=
  ⟨by decide, (C9_discover_client_spec stA "bob").2 (by decide)⟩

/-- C10: a REGISTER, PUBLISH or FETCH line carrying fewer fields than the
command requires makes the per-connection handler raise (modelled as
`none`: no reply is sent and the connection is closed), while a bare
DISCOVER_CLIENT line is answered with DISCOVER_CLIENT_NOT_FOUND and an
unchanged state. -/
theorem C10_malformed_commands (s : ServerState) (ip h f : String) :
    dispatch s ip ["REGISTER"] = none ∧
    dispatch s ip ["REGISTER", h] = none ∧
    dispatch s ip ["PUBLISH"] = none ∧
    dispatch s ip ["PUBLISH", f] = none ∧
    dispatch s ip ["FETCH"] = none ∧
    dispatch s ip ["DISCOVER_CLIENT"] = some ("DISCOVER_CLIENT_NOT_FOUND", s) :=
  ⟨rfl, rfl, rfl, rfl, rfl, rfl⟩

end P2P
